import Mathlib

/-!
Verification of the text-to-score pipeline of the document-retrieval
visualizers: tokenization, lexical normalization (lemmatization and
stop-word filtering), vocabulary construction, frequency statistics, and
the three scoring engines (bag-of-words cosine, TF-IDF, Okapi BM25).

The definitions below are shallow embeddings of the JavaScript sources:

  - `textToTokens`           from `textToTokens` (identical in
                             bag_of_words.js, bm25.js, tokenization.js
                             `tokenizeText`, and the TF-IDF variant)
  - `Token`, `lemmaMapping`, `formToLemma`, `stopWords`,
    `applyLemmatization`, `removeStopWords`, `updateVocabularyInfo`
                             from tokenization.js
  - `mag`, `dotProduct`, `cosineSim`, `countVec`
                             from bag_of_words.js `buildVectors`
  - `tfidfIdf`, `tfVec`, `idfVec`, `tfidfVec`
                             from the TF-IDF visualizer `computeTfIdf`
  - `dfCount`, `bm25Idf`, `avgDocLength`, `bm25TermScore`,
    `bm25TermContrib`, `bm25Vocab`, `bm25DocScore`, `bm25Scores`
                             from bm25.js `computeBm25` (the reference,
                             non-negative smoothed IDF variant)
  - `JsNum` and the `bm25...Js` family: the same BM25 scorer with
    JavaScript number semantics made explicit (a `nan` point that
    propagates through arithmetic), used to analyse the behaviour of
    `parseFloat` on non-numeric parameter input.

Machine floats of the source are modelled as real numbers; `JsNum` adds
the NaN point where the analysed behaviour is NaN propagation itself.
Rendering, DOM wiring and bubble animation (canvas positions `x`, `y`,
`targetX`, `targetY` of tokenization.js and everything in `draw`,
`setup`, `windowResized`, `updateScoreDisplay`) are the presentation
layer and are not part of the scoring core embedded here, so `Token`
keeps the content fields `original`, `text`, `removed` only.
-/

/-- Character class of the splitting regex `[^\p{L}\p{N}\x27]+` of
`textToTokens`: a character is kept inside a token iff it is a letter, a
digit, or an apostrophe.  Lean `Char.isAlpha`/`Char.isDigit` realize the
letter/number classes on the ASCII range; none of the verified
properties depend on the extent of the letter class. -/
def isTokenChar (c : Char) : Bool := c.isAlpha || c.isDigit || c == '\x27'

/-- Splitting on maximal runs of non-token characters while accumulating
the current run of token characters (in reverse) in `acc`; zero-length
tokens are never produced, which models the
`.filter((t) => t.length > 0)` of the source. -/
def tokensAux : List Char → List Char → List (List Char)
  | [], acc => if acc.isEmpty then [] else [acc.reverse]
  | c :: rest, acc =>
    if isTokenChar c then tokensAux rest (c :: acc)
    else if acc.isEmpty then tokensAux rest []
    else acc.reverse :: tokensAux rest []

/-- JavaScript `String.prototype.toLowerCase`, modelled characterwise. -/
def lowerStr (s : String) : String := String.mk (s.data.map Char.toLower)

/-- `textToTokens` of the source: lowercase, split on any maximal run of
characters outside `[\p{L}\p{N}\x27]`, drop empty pieces. -/
def textToTokens (s : String) : List String :=
  (tokensAux ((lowerStr s).data) []).map (fun cs => String.mk cs)

/-- Token record of tokenization.js (content fields only; canvas
coordinates belong to the out-of-scope animation layer). -/
structure Token where
  original : String
  text : String
  removed : Bool
deriving DecidableEq, Repr

/-- The fixed lemma dictionary of tokenization.js (`lemmaMapping`). -/
def lemmaMapping : List (String × List String) :=
  [("bob", ["bob", "bobs", "bob\x27s", "bob’s"]),
   ("run", ["run", "runs", "running", "ran"]),
   ("bike", ["bike", "bikes", "bike\x27s", "bike’s"]),
   ("fox", ["fox", "foxes"]),
   ("dog", ["dog", "dogs"])]

/-- The reverse index surface form → lemma (`formToLemma` of the source,
built by flattening `lemmaMapping`; the surface forms are pairwise
distinct, so first-match lookup agrees with the object built by the
source loop). -/
def formToLemma (s : String) : Option String :=
  (lemmaMapping.flatMap (fun p => p.2.map (fun f => (f, p.1)))).lookup s

/-- Stop-word set of tokenization.js. -/
def stopWords : List String :=
  ["the", "a", "an", "and", "but", "is", "are", "was", "were", "he", "she",
   "they", "of", "to", "in", "on", "over", "by", "with", "for", "it", "as",
   "his", "her", "its"]

/-- One step of `applyLemmatization`: removed tokens are skipped, and a
token whose current text is a known surface form has its text replaced
by the lemma. -/
def lemmatizeToken (t : Token) : Token :=
  if t.removed then t
  else
    match formToLemma t.text with
    | some l => { t with text := l }
    | none => t

/-- `applyLemmatization` of tokenization.js (the `tokens.forEach` pass;
the trailing reposition/vocabulary-display calls are presentation). -/
def applyLemmatization (ts : List Token) : List Token := ts.map lemmatizeToken

/-- One step of `removeStopWords`: a token whose current text is in the
stop-word set is marked removed (soft delete); nothing else changes. -/
def removeStopWordsToken (t : Token) : Token :=
  if t.text ∈ stopWords then { t with removed := true } else t

/-- `removeStopWords` of tokenization.js. -/
def removeStopWords (ts : List Token) : List Token := ts.map removeStopWordsToken

/-- Deduplication keeping the first occurrence of each element: the
order `Array.from(new Set(xs))` produces in JavaScript. -/
def dedupFirstAux (seen : List String) : List String → List String
  | [] => []
  | x :: xs =>
    if x ∈ seen then dedupFirstAux seen xs else x :: dedupFirstAux (x :: seen) xs

/-- `Array.from(new Set(l))`: unique elements in first-occurrence order. -/
def dedupFirst (l : List String) : List String := dedupFirstAux [] l

/-- Vocabulary of tokenization.js `updateVocabularyInfo`: the set of
texts of the non-removed tokens (the source additionally sorts the
display list alphabetically; sorting affects neither membership nor any
property verified here). -/
def updateVocabularyInfo (ts : List Token) : List String :=
  dedupFirst ((ts.filter (fun t => !t.removed)).map (fun t => t.text))

/-- Count vector of `buildVectors` (bag_of_words.js): for each
vocabulary term, the raw occurrence count in the token sequence. -/
def countVec (vocab : List String) (toks : List String) : List ℝ :=
  vocab.map (fun term => (toks.count term : ℝ))

/-- `mag` of bag_of_words.js: Euclidean norm of a vector. -/
noncomputable def mag (v : List ℝ) : ℝ :=
  Real.sqrt ((v.map (fun x => x * x)).sum)

/-- Dot product of two vectors over a shared vocabulary axis
(`reduce((sum, v, i) => sum + v * w[i], 0)` of the source). -/
def dotProduct (v w : List ℝ) : ℝ :=
  (List.zipWith (fun a b => a * b) v w).sum

/-- Cosine similarity with the zero-norm guard of the source:
`qMag === 0 || dMag === 0 ? 0 : dot / (qMag * dMag)`. -/
noncomputable def cosineSim (v w : List ℝ) : ℝ :=
  if mag v = 0 ∨ mag w = 0 then 0 else dotProduct v w / (mag v * mag w)

/-- Document frequency: number of documents containing the term at least
once (`docs.reduce((count, doc) => doc.includes(term) ? count + 1 : count, 0)`). -/
def dfCount (docs : List (List String)) (t : String) : ℕ :=
  docs.countP (fun d => decide (t ∈ d))

/-- Smoothed TF-IDF inverse document frequency of the TF-IDF visualizer:
`Math.log((N + 1) / (n_t + 1))`. -/
noncomputable def tfidfIdf (N nt : ℕ) : ℝ :=
  Real.log (((N : ℝ) + 1) / ((nt : ℝ) + 1))

/-- Normalized term frequency vector of the TF-IDF visualizer:
count / length, and 0 for an empty text. -/
noncomputable def tfVec (vocab : List String) (toks : List String) : List ℝ :=
  vocab.map (fun term =>
    if toks.length = 0 then 0 else (toks.count term : ℝ) / (toks.length : ℝ))

/-- IDF vector over the vocabulary axis (`idf = df.map(...)`). -/
noncomputable def idfVec (docs : List (List String)) (vocab : List String) : List ℝ :=
  vocab.map (fun t => tfidfIdf docs.length (dfCount docs t))

/-- TF-IDF weight vector (`tf.map((tf, i) => tf * idf[i])`). -/
noncomputable def tfidfVec (docs : List (List String)) (vocab : List String)
    (toks : List String) : List ℝ :=
  List.zipWith (fun tf idf => tf * idf) (tfVec vocab toks) (idfVec docs vocab)

/-- Reference BM25 inverse document frequency of bm25.js: the smoothed
positive form `Math.log((N + 0.5) / (nt + 0.5))`. -/
noncomputable def bm25Idf (docs : List (List String)) (t : String) : ℝ :=
  Real.log (((docs.length : ℝ) + 0.5) / ((dfCount docs t : ℝ) + 0.5))

/-- Average document length (`docLengths.reduce((a, b) => a + b, 0) / N`). -/
noncomputable def avgDocLength (docs : List (List String)) : ℝ :=
  ((docs.map List.length).sum : ℝ) / (docs.length : ℝ)

/-- Per-term BM25 contribution of bm25.js, with the zero-frequency short
circuit (`if (f === 0) { contribs[term] = 0; return; }`) taken before the
saturation/length-normalization formula is evaluated. -/
noncomputable def bm25TermScore (idfT k1 b docLen avgLen : ℝ) (f : ℕ) : ℝ :=
  if f = 0 then 0
  else idfT * (((f : ℝ) * (k1 + 1)) / ((f : ℝ) + k1 * (1 - b + b * (docLen / avgLen))))

/-- Contribution of term `t` to the score of `doc` within `docs`. -/
noncomputable def bm25TermContrib (k1 b : ℝ) (docs : List (List String))
    (doc : List String) (t : String) : ℝ :=
  bm25TermScore (bm25Idf docs t) k1 b (doc.length : ℝ) (avgDocLength docs) (doc.count t)

/-- Query-only scoring vocabulary of bm25.js
(`vocab = Array.from(new Set(qTokens))`). -/
def bm25Vocab (qTokens : List String) : List String := dedupFirst qTokens

/-- BM25 total score of one document: sum of the per-term contributions
over the query vocabulary. -/
noncomputable def bm25DocScore (k1 b : ℝ) (qTokens : List String)
    (docs : List (List String)) (doc : List String) : ℝ :=
  ((bm25Vocab qTokens).map (fun t => bm25TermContrib k1 b docs doc t)).sum

/-- The score list `scores` computed by `computeBm25`. -/
noncomputable def bm25Scores (k1 b : ℝ) (qTokens : List String)
    (docs : List (List String)) : List ℝ :=
  docs.map (fun doc => bm25DocScore k1 b qTokens docs doc)

/-- JavaScript number with the NaN point explicit.  `parseFloat` of a
non-numeric slider value yields NaN, and bm25.js feeds that value into
the scoring arithmetic without any validation; this type lets the
resulting propagation be stated. -/
inductive JsNum where
  | nan : JsNum
  | num : ℝ → JsNum

namespace JsNum

/-- JavaScript `+` (NaN-propagating). -/
def add : JsNum → JsNum → JsNum
  | num a, num b => num (a + b)
  | _, _ => nan

/-- JavaScript `-` (NaN-propagating). -/
def sub : JsNum → JsNum → JsNum
  | num a, num b => num (a - b)
  | _, _ => nan

/-- JavaScript `*` (NaN-propagating).  `0 * NaN` is NaN in JavaScript,
which this match realizes. -/
def mul : JsNum → JsNum → JsNum
  | num a, num b => num (a * b)
  | _, _ => nan

/-- JavaScript `/` (NaN-propagating).  A finite, nonzero numerator over
zero yields an infinity in JavaScript; the scorer only ever divides by
zero when every document is empty, and no statement below exercises that
case, so it is conservatively collapsed to `nan` here. -/
noncomputable def div : JsNum → JsNum → JsNum
  | num a, num b => if b = 0 then nan else num (a / b)
  | _, _ => nan

/-- JavaScript `Math.log`.  `Math.log` of a non-positive argument is NaN
or `-Infinity`; the IDF argument of the scorer is always positive, so the
non-positive case is collapsed to `nan`. -/
noncomputable def jsLog : JsNum → JsNum
  | num a => if 0 < a then num (Real.log a) else nan
  | nan => nan

end JsNum

/-- `score += termScore` accumulation of `computeBm25`, starting at 0. -/
def jsSum (l : List JsNum) : JsNum := l.foldl JsNum.add (JsNum.num 0)

/-- BM25 IDF computed in JavaScript number semantics. -/
noncomputable def bm25IdfJs (docs : List (List String)) (t : String) : JsNum :=
  JsNum.jsLog (JsNum.div (JsNum.num ((docs.length : ℝ) + 0.5))
    (JsNum.num ((dfCount docs t : ℝ) + 0.5)))

/-- Average document length in JavaScript number semantics. -/
noncomputable def avgDocLengthJs (docs : List (List String)) : JsNum :=
  JsNum.div (JsNum.num (((docs.map List.length).sum : ℕ) : ℝ))
    (JsNum.num ((docs.length : ℝ)))

/-- Per-term BM25 contribution of bm25.js in JavaScript number
semantics, the `k1` and `b` parameters taken exactly as `parseFloat`
returned them (possibly NaN — the source performs no validation). -/
noncomputable def bm25TermContribJs (k1 b : JsNum) (docs : List (List String))
    (doc : List String) (t : String) : JsNum :=
  if doc.count t = 0 then JsNum.num 0
  else
    JsNum.mul (bm25IdfJs docs t)
      (JsNum.div
        (JsNum.mul (JsNum.num ((doc.count t : ℝ))) (JsNum.add k1 (JsNum.num 1)))
        (JsNum.add (JsNum.num ((doc.count t : ℝ)))
          (JsNum.mul k1
            (JsNum.add (JsNum.sub (JsNum.num 1) b)
              (JsNum.mul b
                (JsNum.div (JsNum.num ((doc.length : ℝ))) (avgDocLengthJs docs)))))))

/-- BM25 per-document total in JavaScript number semantics. -/
noncomputable def bm25DocScoreJs (k1 b : JsNum) (qTokens : List String)
    (docs : List (List String)) (doc : List String) : JsNum :=
  jsSum ((bm25Vocab qTokens).map (fun t => bm25TermContribJs k1 b docs doc t))

/-- The `scores` list of `computeBm25` in JavaScript number semantics. -/
noncomputable def bm25ScoresJs (k1 b : JsNum) (qTokens : List String)
    (docs : List (List String)) : List JsNum :=
  docs.map (fun doc => bm25DocScoreJs k1 b qTokens docs doc)

/-- `Char.toLower` is idempotent: the image of the uppercase range lies
outside the uppercase range. -/
theorem char_toLower_idem (c : Char) : c.toLower.toLower = c.toLower := by
  have key : ∀ d : Char, ¬(d.toNat ≥ 65 ∧ d.toNat ≤ 90) → d.toLower = d := by
    intro d hd
    unfold Char.toLower
    exact if_neg hd
  by_cases h : c.toNat ≥ 65 ∧ c.toNat ≤ 90
  · have hv : (c.toNat + 32).isValidChar := Or.inl (by omega)
    have ht : (Char.ofNat (c.toNat + 32)).toNat = c.toNat + 32 := by
      rw [Char.ofNat, dif_pos hv]
      rfl
    have hlc : c.toLower = Char.ofNat (c.toNat + 32) := by
      unfold Char.toLower
      exact if_pos h
    rw [hlc]
    apply key
    rw [ht]
    omega
  · rw [key c h, key c h]

/-- Every chunk produced by `tokensAux` is a nonempty run of token
characters, provided the accumulator holds token characters. -/
theorem tokensAux_sound : ∀ (cs acc : List Char), (∀ c ∈ acc, isTokenChar c) →
    ∀ t ∈ tokensAux cs acc, t ≠ [] ∧ ∀ c ∈ t, isTokenChar c := by
  intro cs
  induction cs with
  | nil =>
    intro acc hacc t ht
    simp only [tokensAux] at ht
    by_cases h : acc.isEmpty
    · simp [h] at ht
    · rw [if_neg h] at ht
      simp only [List.mem_singleton] at ht
      subst ht
      refine ⟨?_, ?_⟩
      · simp only [ne_eq, List.reverse_eq_nil_iff]
        simpa [List.isEmpty_iff] using h
      · intro c hc
        exact hacc c (List.mem_reverse.mp hc)
  | cons c rest ih =>
    intro acc hacc t ht
    simp only [tokensAux] at ht
    by_cases h1 : isTokenChar c
    · rw [if_pos h1] at ht
      refine ih (c :: acc) ?_ t ht
      intro d hd
      rcases List.mem_cons.mp hd with rfl | hd2
      · exact h1
      · exact hacc d hd2
    · rw [if_neg h1] at ht
      by_cases h2 : acc.isEmpty
      · rw [if_pos h2] at ht
        exact ih [] (by simp) t ht
      · rw [if_neg h2] at ht
        rcases List.mem_cons.mp ht with rfl | ht2
        · refine ⟨?_, ?_⟩
          · simp only [ne_eq, List.reverse_eq_nil_iff]
            simpa [List.isEmpty_iff] using h2
          · intro d hd
            exact hacc d (List.mem_reverse.mp hd)
        · exact ih [] (by simp) t ht2

/-- Claim C8: for every input string, `textToTokens` lowercases the
input (it is invariant under pre-lowercasing), splits on maximal runs of
characters outside the letter/number/apostrophe class (every produced
token consists of token characters only, and the contraction in the
concrete example stays one token), never returns a zero-length token,
and maps the empty input to the empty sequence without error. -/
theorem textToTokens_spec (s : String) :
    ((textToTokens s).all
      (fun t => decide (0 < t.length) && t.data.all isTokenChar)) = true ∧
    textToTokens "" = [] ∧
    textToTokens (lowerStr s) = textToTokens s ∧
    textToTokens "Bob\x27s  dog, RUNS!" = ["bob\x27s", "dog", "runs"] := by
  refine ⟨?_, by decide, ?_, by decide⟩
  · rw [List.all_eq_true]
    intro t ht
    unfold textToTokens at ht
    rcases List.mem_map.mp ht with ⟨cs, hcs, rfl⟩
    have hs := tokensAux_sound _ [] (by simp) cs hcs
    rw [Bool.and_eq_true]
    constructor
    · have hlen : (String.mk cs).length = cs.length := rfl
      simp only [decide_eq_true_eq, hlen]
      exact List.length_pos.mpr hs.1
    · rw [List.all_eq_true]
      intro c hc
      exact hs.2 c hc
  · unfold textToTokens
    have hdata : (lowerStr (lowerStr s)).data = (lowerStr s).data := by
      show (s.data.map Char.toLower).map Char.toLower = s.data.map Char.toLower
      rw [List.map_map]
      exact List.map_congr_left (fun c _ => char_toLower_idem c)
    rw [hdata]

/-- A successful association-list lookup returns a stored pair. -/
theorem lookup_mem : ∀ {ps : List (String × String)} {s l : String},
    ps.lookup s = some l → (s, l) ∈ ps := by
  intro ps
  induction ps with
  | nil => intro s l h; simp [List.lookup] at h
  | cons p ps ih =>
    obtain ⟨k, v⟩ := p
    intro s l h
    rw [List.lookup] at h
    by_cases hsk : s == k
    · have hs : s = k := eq_of_beq hsk
      rw [hsk] at h
      simp at h
      subst hs
      subst h
      exact List.mem_cons_self _ _
    · rw [Bool.eq_false_iff.mpr hsk] at h
      simp at h
      exact List.mem_cons_of_mem _ (ih h)

/-- Every lemma of the dictionary is one of its own surface forms, so
lemmatization maps lemmas to themselves. -/
theorem formToLemma_fix {s l : String} (h : formToLemma s = some l) :
    formToLemma l = some l := by
  have hm := lookup_mem (s := s) (l := l) h
  fin_cases hm <;> decide

/-- No stop word is a known surface form: the dictionary and the
stop-word set are disjoint. -/
theorem formToLemma_of_stopWord {s : String} (h : s ∈ stopWords) :
    formToLemma s = none := by
  fin_cases h <;> decide

/-- No lemma produced by the dictionary is a stop word. -/
theorem lemma_not_stopWord {s l : String} (h : formToLemma s = some l) :
    l ∉ stopWords := by
  have hm := lookup_mem (s := s) (l := l) h
  fin_cases hm <;> decide

/-- Lemmatizing a single token twice is the same as lemmatizing once. -/
theorem lemmatizeToken_idem (t : Token) :
    lemmatizeToken (lemmatizeToken t) = lemmatizeToken t := by
  unfold lemmatizeToken
  by_cases hr : t.removed
  · simp [hr]
  · simp only [hr, if_false, Bool.false_eq_true]
    cases hf : formToLemma t.text with
    | none => simp [hr, hf]
    | some l =>
      simp only [hr, Bool.false_eq_true, if_false]
      rw [formToLemma_fix hf]

/-- Marking stop words on a single token twice is the same as once. -/
theorem removeStopWordsToken_idem (t : Token) :
    removeStopWordsToken (removeStopWordsToken t) = removeStopWordsToken t := by
  unfold removeStopWordsToken
  by_cases hs : t.text ∈ stopWords
  · simp [hs]
  · simp [hs]

/-- On a single token, lemmatization and stop-word marking commute,
because the stop-word set is disjoint from both the surface forms and
the lemmas of the dictionary. -/
theorem tokenOps_comm (t : Token) :
    removeStopWordsToken (lemmatizeToken t) = lemmatizeToken (removeStopWordsToken t) := by
  unfold lemmatizeToken removeStopWordsToken
  by_cases hr : t.removed
  · by_cases hs : t.text ∈ stopWords
    · obtain ⟨o, x, r⟩ := t
      simp only at hr
      subst hr
      simp [hs]
    · simp [hr, hs]
  · by_cases hs : t.text ∈ stopWords
    · rw [formToLemma_of_stopWord hs]
      simp [hr, hs]
    · cases hf : formToLemma t.text with
      | none => simp [hr, hs, hf]
      | some l =>
        have hl : l ∉ stopWords := lemma_not_stopWord hf
        simp [hr, hs, hf, hl]

/-- Claim C7: over any token sequence, lemmatization and stop-word
removal are each idempotent, and the two passes commute — in either
order they produce the same surviving vocabulary (indeed the same token
states). -/
theorem lemmatize_stopwords_idem_comm (ts : List Token) :
    applyLemmatization (applyLemmatization ts) = applyLemmatization ts ∧
    removeStopWords (removeStopWords ts) = removeStopWords ts ∧
    updateVocabularyInfo (removeStopWords (applyLemmatization ts)) =
      updateVocabularyInfo (applyLemmatization (removeStopWords ts)) := by
  have hcomm : removeStopWords (applyLemmatization ts) =
      applyLemmatization (removeStopWords ts) := by
    unfold removeStopWords applyLemmatization
    rw [List.map_map, List.map_map]
    exact List.map_congr_left (fun t _ => tokenOps_comm t)
  refine ⟨?_, ?_, ?_⟩
  · unfold applyLemmatization
    rw [List.map_map]
    exact List.map_congr_left (fun t _ => lemmatizeToken_idem t)
  · unfold removeStopWords
    rw [List.map_map]
    exact List.map_congr_left (fun t _ => removeStopWordsToken_idem t)
  · rw [hcomm]

/-- Marking stop words on a single token updates exactly the removed
flag, by disjunction with the membership test on the current text. -/
theorem removeStopWordsToken_eq (t : Token) :
    removeStopWordsToken t =
      { original := t.original, text := t.text,
        removed := t.removed || decide (t.text ∈ stopWords) } := by
  unfold removeStopWordsToken
  by_cases h : t.text ∈ stopWords
  · simp [h]
  · simp [h]

/-- Claim C9: stop-word filtering is a frame-preserving pass — it
returns one token per input token in the same order, leaves `original`
and `text` unchanged, only sets the removed flag on tokens whose current
text is a stop word, and the vocabulary computed afterwards draws
exactly from the still-alive tokens whose text is not a stop word. -/
theorem removeStopWords_frame (ts : List Token) :
    removeStopWords ts =
      ts.map (fun t =>
        { original := t.original, text := t.text,
          removed := t.removed || decide (t.text ∈ stopWords) }) ∧
    (removeStopWords ts).length = ts.length ∧
    (removeStopWords ts).map (fun t => t.original) = ts.map (fun t => t.original) ∧
    (removeStopWords ts).map (fun t => t.text) = ts.map (fun t => t.text) ∧
    updateVocabularyInfo (removeStopWords ts) =
      dedupFirst ((ts.filter
        (fun t => !t.removed && !(decide (t.text ∈ stopWords)))).map
          (fun t => t.text)) := by
  have hmap : removeStopWords ts =
      ts.map (fun t =>
        { original := t.original, text := t.text,
          removed := t.removed || decide (t.text ∈ stopWords) }) := by
    unfold removeStopWords
    exact List.map_congr_left (fun t _ => removeStopWordsToken_eq t)
  refine ⟨hmap, ?_, ?_, ?_, ?_⟩
  · unfold removeStopWords
    exact List.length_map _ _
  · unfold removeStopWords
    rw [List.map_map]
    apply List.map_congr_left
    intro t _
    unfold removeStopWordsToken
    by_cases h : t.text ∈ stopWords
    · simp [h]
    · simp [h]
  · unfold removeStopWords
    rw [List.map_map]
    apply List.map_congr_left
    intro t _
    unfold removeStopWordsToken
    by_cases h : t.text ∈ stopWords
    · simp [h]
    · simp [h]
  · unfold updateVocabularyInfo
    rw [hmap, List.filter_map, List.map_map]
    have hfilt : List.filter
        ((fun t => !t.removed) ∘ fun t =>
          ({ original := t.original, text := t.text,
             removed := t.removed || decide (t.text ∈ stopWords) } : Token)) ts =
        List.filter (fun t => !t.removed && !(decide (t.text ∈ stopWords))) ts := by
      apply List.filter_congr
      intro t _
      simp [Function.comp, Bool.not_or]
    rw [hfilt]
    congr 1

/-- A list sum as a `Finset.range` sum over positional reads. -/
theorem list_sum_getD (l : List ℝ) :
    l.sum = ∑ i ∈ Finset.range l.length, l.getD i 0 := by
  induction l with
  | nil => simp
  | cons a t ih =>
    rw [List.sum_cons, List.length_cons, Finset.sum_range_succ']
    simp only [List.getD_cons_succ, List.getD_cons_zero]
    rw [← ih]
    ring

/-- The summed squares underlying `mag`, in positional form. -/
theorem sumsq_eq (v : List ℝ) :
    (v.map (fun x => x * x)).sum = ∑ i ∈ Finset.range v.length, v.getD i 0 ^ 2 := by
  rw [list_sum_getD, List.length_map]
  apply Finset.sum_congr rfl
  intro i hi
  rw [Finset.mem_range] at hi
  rw [List.getD_eq_getElem _ _ (by simpa using hi), List.getElem_map,
    List.getD_eq_getElem _ _ hi]
  ring

/-- `dotProduct` in positional form. -/
theorem dot_eq_sum (v w : List ℝ) :
    dotProduct v w = ∑ i ∈ Finset.range (min v.length w.length),
      v.getD i 0 * w.getD i 0 := by
  unfold dotProduct
  rw [list_sum_getD, List.length_zipWith]
  apply Finset.sum_congr rfl
  intro i hi
  rw [Finset.mem_range] at hi
  have hv : i < v.length := lt_of_lt_of_le hi (min_le_left _ _)
  have hw : i < w.length := lt_of_lt_of_le hi (min_le_right _ _)
  rw [List.getD_eq_getElem _ _ (by rw [List.length_zipWith]; exact hi),
    List.getElem_zipWith, List.getD_eq_getElem _ _ hv, List.getD_eq_getElem _ _ hw]

/-- Extending the index range of a sum of squares only grows it. -/
theorem sq_sum_mono (v : List ℝ) (n : ℕ) (hn : n ≤ v.length) :
    ∑ i ∈ Finset.range n, v.getD i 0 ^ 2 ≤ (v.map (fun x => x * x)).sum := by
  rw [sumsq_eq]
  exact Finset.sum_le_sum_of_subset_of_nonneg (Finset.range_subset.mpr hn)
    (fun i _ _ => sq_nonneg _)

/-- Cauchy-Schwarz for the list-level dot product and norms of the
source, covering vectors of unequal length. -/
theorem dot_le_mag_mul_mag (v w : List ℝ) : dotProduct v w ≤ mag v * mag w := by
  rw [dot_eq_sum]
  calc ∑ i ∈ Finset.range (min v.length w.length), v.getD i 0 * w.getD i 0
      ≤ Real.sqrt (∑ i ∈ Finset.range (min v.length w.length), v.getD i 0 ^ 2) *
        Real.sqrt (∑ i ∈ Finset.range (min v.length w.length), w.getD i 0 ^ 2) :=
        Real.sum_mul_le_sqrt_mul_sqrt _ _ _
    _ ≤ mag v * mag w := by
        unfold mag
        apply mul_le_mul
        · exact Real.sqrt_le_sqrt (sq_sum_mono v _ (min_le_left _ _))
        · exact Real.sqrt_le_sqrt (sq_sum_mono w _ (min_le_right _ _))
        · exact Real.sqrt_nonneg _
        · exact Real.sqrt_nonneg _

/-- The dot product of entrywise non-negative vectors is non-negative. -/
theorem dot_nonneg (v w : List ℝ) (hv : ∀ x ∈ v, 0 ≤ x) (hw : ∀ x ∈ w, 0 ≤ x) :
    0 ≤ dotProduct v w := by
  rw [dot_eq_sum]
  apply Finset.sum_nonneg
  intro i hi
  rw [Finset.mem_range] at hi
  have h1 : 0 ≤ v.getD i 0 := by
    rw [List.getD_eq_getElem _ _ (lt_of_lt_of_le hi (min_le_left _ _))]
    exact hv _ (List.getElem_mem _)
  have h2 : 0 ≤ w.getD i 0 := by
    rw [List.getD_eq_getElem _ _ (lt_of_lt_of_le hi (min_le_right _ _))]
    exact hw _ (List.getElem_mem _)
  exact mul_nonneg h1 h2

/-- The smoothed TF-IDF IDF is non-negative whenever df does not exceed
the collection size — which `dfCount` guarantees structurally. -/
theorem tfidfIdf_nonneg {N nt : ℕ} (h : nt ≤ N) : 0 ≤ tfidfIdf N nt := by
  unfold tfidfIdf
  apply Real.log_nonneg
  rw [one_le_div (by positivity)]
  have hc : (nt : ℝ) ≤ (N : ℝ) := Nat.cast_le.mpr h
  linarith

/-- Entrywise products of non-negative lists are non-negative. -/
theorem zipWith_mul_nonneg : ∀ (a b : List ℝ), (∀ x ∈ a, 0 ≤ x) →
    (∀ x ∈ b, 0 ≤ x) → ∀ x ∈ List.zipWith (fun p q => p * q) a b, 0 ≤ x := by
  intro a
  induction a with
  | nil => intro b _ _ x hx; simp at hx
  | cons p ps ih =>
    intro b ha hb x hx
    cases b with
    | nil => simp at hx
    | cons q qs =>
      rw [List.zipWith_cons_cons] at hx
      rcases List.mem_cons.mp hx with rfl | hx2
      · exact mul_nonneg (ha p (List.mem_cons_self _ _)) (hb q (List.mem_cons_self _ _))
      · exact ih qs (fun y hy => ha y (List.mem_cons_of_mem _ hy))
          (fun y hy => hb y (List.mem_cons_of_mem _ hy)) x hx2

/-- Claim C3: cosine similarity is the dot product over the product of
norms with an explicit zero guard when either norm vanishes, it lies in
`[0, 1]` on entrywise non-negative vectors, and both the raw count
vectors and the TF-IDF weight vectors produced by the pipeline are
entrywise non-negative. -/
theorem cosine_guard_and_bounds (v w : List ℝ) :
    (mag v = 0 ∨ mag w = 0 → cosineSim v w = 0) ∧
    (¬(mag v = 0 ∨ mag w = 0) →
      cosineSim v w = dotProduct v w / (mag v * mag w)) ∧
    ((∀ x ∈ v, 0 ≤ x) → (∀ x ∈ w, 0 ≤ x) →
      0 ≤ cosineSim v w ∧ cosineSim v w ≤ 1) ∧
    (∀ vocab toks, ∀ x ∈ countVec vocab toks, 0 ≤ x) ∧
    (∀ docs vocab toks, ∀ x ∈ tfidfVec docs vocab toks, 0 ≤ x) := by
  refine ⟨?_, ?_, ?_, ?_, ?_⟩
  · intro h
    unfold cosineSim
    rw [if_pos h]
  · intro h
    unfold cosineSim
    rw [if_neg h]
  · intro hv hw
    unfold cosineSim
    by_cases h : mag v = 0 ∨ mag w = 0
    · rw [if_pos h]
      norm_num
    · rw [if_neg h]
      push_neg at h
      have hv0 : 0 < mag v := lt_of_le_of_ne (Real.sqrt_nonneg _) (Ne.symm h.1)
      have hw0 : 0 < mag w := lt_of_le_of_ne (Real.sqrt_nonneg _) (Ne.symm h.2)
      constructor
      · exact div_nonneg (dot_nonneg v w hv hw) (le_of_lt (mul_pos hv0 hw0))
      · rw [div_le_one (mul_pos hv0 hw0)]
        exact dot_le_mag_mul_mag v w
  · intro vocab toks x hx
    rcases List.mem_map.mp hx with ⟨term, _, rfl⟩
    positivity
  · intro docs vocab toks x hx
    refine zipWith_mul_nonneg (tfVec vocab toks) (idfVec docs vocab) ?_ ?_ x hx
    · intro y hy
      rcases List.mem_map.mp hy with ⟨term, _, rfl⟩
      by_cases h0 : toks.length = 0
      · simp [h0]
      · rw [if_neg h0]
        positivity
    · intro y hy
      rcases List.mem_map.mp hy with ⟨term, _, rfl⟩
      exact tfidfIdf_nonneg (List.countP_le_length _)

/-- Witness for Claim C3 at a concrete pair of non-negative vectors. -/
theorem cosine_guard_and_bounds_witness :
    0 ≤ cosineSim [1, 2] [2, 1] ∧ cosineSim [1, 2] [2, 1] ≤ 1 :=
  (cosine_guard_and_bounds [1, 2] [2, 1]).2.2.1
    (by intro x hx; fin_cases hx <;> norm_num)
    (by intro x hx; fin_cases hx <;> norm_num)

/-- Claim C1: for every term of the query-only vocabulary, the reference
scorer computes `idf(t) = ln((N + 0.5) / (df(t) + 0.5))` with `N` the
document count, the document frequency never exceeds `N`, and the
resulting idf is non-negative. -/
theorem bm25_reference_idf_nonneg (qTokens : List String)
    (docs : List (List String)) (t : String) (ht : t ∈ bm25Vocab qTokens) :
    bm25Idf docs t =
      Real.log (((docs.length : ℝ) + 0.5) / ((dfCount docs t : ℝ) + 0.5)) ∧
    dfCount docs t ≤ docs.length ∧
    0 ≤ bm25Idf docs t := by
  refine ⟨rfl, List.countP_le_length _, ?_⟩
  unfold bm25Idf
  apply Real.log_nonneg
  rw [one_le_div (by positivity)]
  have h : dfCount docs t ≤ docs.length := List.countP_le_length _
  have hc : (dfCount docs t : ℝ) ≤ (docs.length : ℝ) := Nat.cast_le.mpr h
  linarith

/-- Witness for Claim C1 at a concrete query and document set. -/
theorem bm25_reference_idf_nonneg_witness :
    "cat" ∈ bm25Vocab ["cat"] ∧ 0 ≤ bm25Idf [["cat"], [], []] "cat" :=
  ⟨by decide,
    (bm25_reference_idf_nonneg ["cat"] [["cat"], [], []] "cat" (by decide)).2.2⟩

/-- Claim C2: whenever the raw occurrence count of a term in a document
is zero, the per-term BM25 contribution is exactly zero, for every idf
value (of either sign), every `k1`, `b`, document length and average
length: the `if (f === 0)` short circuit fires before the formula. -/
theorem bm25_zero_count_contrib_zero (idfT k1 b docLen avgLen : ℝ)
    (docs : List (List String)) (doc : List String) (t : String)
    (h : doc.count t = 0) :
    bm25TermScore idfT k1 b docLen avgLen (doc.count t) = 0 ∧
    bm25TermContrib k1 b docs doc t = 0 := by
  constructor
  · unfold bm25TermScore
    rw [if_pos h]
  · unfold bm25TermContrib bm25TermScore
    rw [if_pos h]

/-- Witness for Claim C2: a negative idf and a document without the
term. -/
theorem bm25_zero_count_contrib_zero_witness :
    (["dog"] : List String).count "cat" = 0 ∧
    bm25TermScore (-1) 1.5 0.75 5 2 ((["dog"] : List String).count "cat") = 0 :=
  ⟨by decide,
    (bm25_zero_count_contrib_zero (-1) 1.5 0.75 5 2 [["dog"]] ["dog"] "cat"
      (by decide)).1⟩

/-- Claim C5: with `k1 = 0` the BM25 total of any document collapses to
the sum of the idf values of exactly the query-vocabulary terms that
occur in the document, for every `b`, document and document length. -/
theorem bm25_k1_zero_idf_sum (b : ℝ) (qTokens : List String)
    (docs : List (List String)) (doc : List String) :
    bm25DocScore 0 b qTokens docs doc =
      (((bm25Vocab qTokens).filter (fun t => decide (doc.count t ≠ 0))).map
        (fun t => bm25Idf docs t)).sum := by
  unfold bm25DocScore
  induction bm25Vocab qTokens with
  | nil => simp
  | cons t ts ih =>
    rw [List.map_cons, List.sum_cons, ih, List.filter_cons]
    by_cases h : doc.count t = 0
    · simp only [h, decide_not]
      unfold bm25TermContrib bm25TermScore
      simp [h]
    · have hne : ((doc.count t : ℝ)) ≠ 0 := Nat.cast_ne_zero.mpr h
      unfold bm25TermContrib bm25TermScore
      simp only [h, if_false, if_neg h]
      rw [if_pos (by simp [h])]
      rw [List.map_cons, List.sum_cons]
      congr 1
      rw [zero_add, mul_one, zero_mul, add_zero, div_self hne, mul_one]

/-- Claim C6: the smoothed TF-IDF idf `ln((N + 1) / (df + 1))` has a
denominator that can never vanish (so the value is defined even for a
term absent from every document), and it is non-negative for every
`df ≤ N`. -/
theorem tfidf_idf_welldefined_nonneg (N nt : ℕ) (h : nt ≤ N) :
    ((nt : ℝ) + 1) ≠ 0 ∧
    tfidfIdf N nt = Real.log (((N : ℝ) + 1) / ((nt : ℝ) + 1)) ∧
    0 ≤ tfidfIdf N nt :=
  ⟨by positivity, rfl, tfidfIdf_nonneg h⟩

/-- Witness for Claim C6 at `N = 3`, `df = 0` (a term absent from all
documents). -/
theorem tfidf_idf_welldefined_nonneg_witness :
    (0 : ℕ) ≤ 3 ∧ (((0 : ℕ) : ℝ) + 1) ≠ 0 ∧ 0 ≤ tfidfIdf 3 0 :=
  ⟨by norm_num, (tfidf_idf_welldefined_nonneg 3 0 (by norm_num)).1,
    (tfidf_idf_welldefined_nonneg 3 0 (by norm_num)).2.2⟩

/-- Claim C10: when every document is empty (average document length 0),
every per-term contribution and every document total of the BM25 scorer
is exactly 0: the zero-count short circuit fires before the division by
the average length is reached. -/
theorem bm25_empty_docs_zero (k1 b : ℝ) (qTokens : List String)
    (docs : List (List String)) (h : ∀ d ∈ docs, d = []) :
    bm25Scores k1 b qTokens docs = docs.map (fun _ => (0 : ℝ)) ∧
    ∀ d ∈ docs, ∀ t, bm25TermContrib k1 b docs d t = 0 := by
  have hc : ∀ d ∈ docs, ∀ t, bm25TermContrib k1 b docs d t = 0 := by
    intro d hd t
    rw [h d hd]
    unfold bm25TermContrib bm25TermScore
    simp
  refine ⟨?_, hc⟩
  unfold bm25Scores
  apply List.map_congr_left
  intro d hd
  unfold bm25DocScore
  rw [List.map_congr_left (fun t ht => hc d hd t)]
  simp

/-- Witness for Claim C10: three empty documents. -/
theorem bm25_empty_docs_zero_witness :
    bm25Scores 1.5 0.75 ["cat"] [[], [], []] = [0, 0, 0] := by
  have h := (bm25_empty_docs_zero 1.5 0.75 ["cat"] [[], [], []]
    (by intro d hd; simpa using hd)).1
  simpa using h

/-- NaN absorbs on the right of `+`. -/
theorem JsNum.add_nan : ∀ x : JsNum, JsNum.add x JsNum.nan = JsNum.nan := by
  intro x
  cases x <;> rfl

/-- NaN absorbs on the left of `+`. -/
theorem JsNum.nan_add : ∀ x : JsNum, JsNum.add JsNum.nan x = JsNum.nan := by
  intro x
  rfl

/-- NaN absorbs on the right of `*`. -/
theorem JsNum.mul_nan : ∀ x : JsNum, JsNum.mul x JsNum.nan = JsNum.nan := by
  intro x
  cases x <;> rfl

/-- NaN absorbs on the left of `*`. -/
theorem JsNum.nan_mul : ∀ x : JsNum, JsNum.mul JsNum.nan x = JsNum.nan := by
  intro x
  rfl

/-- NaN absorbs on the right of `/`. -/
theorem JsNum.div_nan : ∀ x : JsNum, JsNum.div x JsNum.nan = JsNum.nan := by
  intro x
  cases x <;> rfl

/-- NaN absorbs on the left of `/`. -/
theorem JsNum.nan_div : ∀ x : JsNum, JsNum.div JsNum.nan x = JsNum.nan := by
  intro x
  rfl

/-- A fold of `+` from a NaN accumulator stays NaN. -/
theorem foldl_add_nan (l : List JsNum) :
    l.foldl JsNum.add JsNum.nan = JsNum.nan := by
  induction l with
  | nil => rfl
  | cons x xs ih => simpa [JsNum.nan_add] using ih

/-- A sum in JavaScript number semantics is NaN once any addend is. -/
theorem jsSum_of_nan_mem {l : List JsNum} (h : JsNum.nan ∈ l) :
    jsSum l = JsNum.nan := by
  unfold jsSum
  generalize JsNum.num 0 = acc
  induction l generalizing acc with
  | nil => simp at h
  | cons x xs ih =>
    rcases List.mem_cons.mp h with rfl | hm
    · simp [List.foldl_cons, JsNum.add_nan, foldl_add_nan]
    · exact ih hm _

/-- If `k1` arrives as NaN, the total score of any document containing
some query-vocabulary term is NaN: bm25.js performs no validation and
the NaN flows through the saturation denominator into the sum. -/
theorem bm25DocScoreJs_nan (b : JsNum) (qTokens : List String)
    (docs : List (List String)) (doc : List String) (t : String)
    (ht : t ∈ bm25Vocab qTokens) (hf : doc.count t ≠ 0) :
    bm25DocScoreJs JsNum.nan b qTokens docs doc = JsNum.nan := by
  unfold bm25DocScoreJs
  apply jsSum_of_nan_mem
  have hcon : bm25TermContribJs JsNum.nan b docs doc t = JsNum.nan := by
    unfold bm25TermContribJs
    rw [if_neg hf]
    simp [JsNum.nan_add, JsNum.mul_nan, JsNum.nan_mul, JsNum.add_nan,
      JsNum.div_nan, JsNum.nan_div]
  exact List.mem_map.mpr ⟨t, ht, hcon⟩

/-- Claim C4, counterexample to the stated behavior: with `k1` parsed to
NaN (a non-numeric slider value) the scorer runs to completion and
returns NaN inside the score list — no invalid-parameter condition is
reported before scoring, and documents without query terms still score 0
through the zero-count short circuit. -/
theorem bm25_no_param_validation_counterexample :
    bm25ScoresJs JsNum.nan (JsNum.num 0.75) ["cat"] [["cat"], [], []] =
      [JsNum.nan, JsNum.num 0, JsNum.num 0] := by
  have h1 : bm25DocScoreJs JsNum.nan (JsNum.num 0.75) ["cat"] [["cat"], [], []]
      ["cat"] = JsNum.nan := by
    unfold bm25DocScoreJs
    apply jsSum_of_nan_mem
    have hcon : bm25TermContribJs JsNum.nan (JsNum.num 0.75) [["cat"], [], []]
        ["cat"] "cat" = JsNum.nan := by
      unfold bm25TermContribJs
      rw [if_neg (by decide)]
      simp [JsNum.nan_add, JsNum.mul_nan, JsNum.nan_mul, JsNum.add_nan,
        JsNum.div_nan, JsNum.nan_div]
    exact List.mem_map.mpr ⟨"cat", by decide, hcon⟩
  have h2 : bm25DocScoreJs JsNum.nan (JsNum.num 0.75) ["cat"] [["cat"], [], []]
      [] = JsNum.num 0 := by
    unfold bm25DocScoreJs
    have hcon : bm25TermContribJs JsNum.nan (JsNum.num 0.75) [["cat"], [], []]
        [] "cat" = JsNum.num 0 := by
      unfold bm25TermContribJs
      rw [if_pos (by decide)]
    have hv : bm25Vocab ["cat"] = ["cat"] := by decide
    rw [hv, List.map_cons, List.map_nil, hcon]
    unfold jsSum
    rw [List.foldl_cons, List.foldl_nil]
    show JsNum.num (0 + 0) = JsNum.num 0
    norm_num
  unfold bm25ScoresJs
  rw [List.map_cons, List.map_cons, List.map_cons, List.map_nil, h1, h2]

/-- Claim C4 (amended): the source performs no validation of `k1`/`b`;
a NaN parameter propagates through the scoring pipeline, making the
total score of every document containing at least one query-vocabulary
term NaN instead of an invalid-parameter report. -/
theorem bm25_nonnumeric_params_propagate (b : JsNum) (qTokens : List String)
    (docs : List (List String)) (doc : List String) (t : String)
    (ht : t ∈ bm25Vocab qTokens) (hf : doc.count t ≠ 0) :
    bm25DocScoreJs JsNum.nan b qTokens docs doc = JsNum.nan :=
  bm25DocScoreJs_nan b qTokens docs doc t ht hf

/-- Witness for the amended Claim C4 at a concrete query and documents. -/
theorem bm25_nonnumeric_params_propagate_witness :
    "cat" ∈ bm25Vocab ["cat"] ∧ (["cat"] : List String).count "cat" ≠ 0 ∧
    bm25DocScoreJs JsNum.nan (JsNum.num 0.75) ["cat"] [["cat"], [], []]
      ["cat"] = JsNum.nan :=
  ⟨by decide, by decide,
    bm25_nonnumeric_params_propagate (JsNum.num 0.75) ["cat"]
      [["cat"], [], []] ["cat"] "cat" (by decide) (by decide)⟩
